/-
Verification of the rBoot OTA update engine (src/rboot-ota.c, src/rboot-new.c)
against its natural-language specification.

The C sources are shallowly embedded.  The flash traffic generated by the
buffered OTA write loop is modelled as an explicit list of flash operations
(the calls to SPIWrite / SPIEraseSector it issues, in order), and the
configuration and session functions as pure Lean functions over explicit
state.  Machine integers are modelled as Nat; all arithmetic on the
modelled paths stays far below 2^32, so no wrap-around occurs.
-/
import Mathlib

/-- Flash sector size in bytes.  Modelled from the spec: SECTOR_SIZE is
defined in rboot.h, which is not under src/; the spec fixes it as a
power-of-two constant and rboot-ota.h requires OTA_BUFFER_SIZE (4096) to be
a multiple of it; the target device's sector size is 0x1000. -/
def SECTOR_SIZE : Nat := 4096

/-- OTA scratch-buffer size, rboot-ota.h line 35. -/
def OTA_BUFFER_SIZE : Nat := 4096

/-- Modelled from the spec: MAX_ROMS, the fixed maximum slot cardinality,
is defined in rboot.h, which is not under src/; the upstream rBoot default
is 4. -/
def MAX_ROMS : Nat := 4

/-- Factory-reset magic word, rboot-new.c line 16. -/
def FACTORY_RESET_MAGIC : Nat := 0x1AC3F5E7

/-- One call to a flash primitive issued by the OTA write engine. -/
inductive FlashOp where
  | write (addr : Nat) (data : List Nat)
  | eraseSector (sector : Nat)
deriving DecidableEq

/-- Effect of one flash operation on the byte-addressed flash contents:
SPIWrite programs the given bytes starting at addr, SPIEraseSector resets
one whole sector to 0xFF. -/
def applyOp (f : Nat → Nat) : FlashOp → Nat → Nat
  | FlashOp.write a bs, x =>
      if a ≤ x ∧ x < a + bs.length then bs.getD (x - a) 0 else f x
  | FlashOp.eraseSector s, x =>
      if s * SECTOR_SIZE ≤ x ∧ x < s * SECTOR_SIZE + SECTOR_SIZE then 0xFF else f x

/-- Flash contents after a sequence of flash operations. -/
def applyTrace (f : Nat → Nat) (t : List FlashOp) : Nat → Nat :=
  t.foldl applyOp f

/-- Loop body of rboot_ota_write, rboot-ota.c lines 82-108: while bytes
remain, copy at most OTA_BUFFER_SIZE of them into the scratch buffer,
SPIWrite them at target_addr + write_offset, advance the offset, and when
the new cumulative offset is a multiple of SECTOR_SIZE, SPIEraseSector the
sector holding target_addr + write_offset.  The first argument is fuel;
fuel = data.length suffices because every iteration consumes at least one
byte.  Only the successful path is modelled (every SPIWrite and
SPIEraseSector returns 0). -/
def otaWriteGo : Nat → Nat → Nat → List Nat → List FlashOp
  | 0, _, _, _ => []
  | _, _, _, [] => []
  | fuel + 1, T, off, b :: rest =>
      let data := b :: rest
      let c := min data.length OTA_BUFFER_SIZE
      FlashOp.write (T + off) (data.take c) ::
        ((if (off + c) % SECTOR_SIZE = 0 then
            [FlashOp.eraseSector ((T + off + c) / SECTOR_SIZE)]
          else []) ++ otaWriteGo fuel T (off + c) (data.drop c))

/-- Flash operations issued by one successful rboot_ota_write call that
starts at cumulative offset off of a session targeting address T. -/
def otaWriteTrace (T off : Nat) (data : List Nat) : List FlashOp :=
  otaWriteGo data.length T off data

/-- Flash operations of a whole session whose byte stream the caller has
split into the given parts, each part handed to one rboot_ota_write call;
the cumulative write offset is threaded through the calls exactly as
handle->write_offset is. -/
def otaSessionTrace (T : Nat) : Nat → List (List Nat) → List FlashOp
  | _, [] => []
  | off, p :: ps => otaWriteTrace T off p ++ otaSessionTrace T (off + p.length) ps

/-- Some operation of the trace programs at least one byte starting in
sector s. -/
def traceProgramsSector (t : List FlashOp) (s : Nat) : Prop :=
  ∃ a bs, FlashOp.write a bs ∈ t ∧ a / SECTOR_SIZE = s ∧ bs ≠ []

/-- Some operation of the trace erases sector s. -/
def traceErasesSector (t : List FlashOp) (s : Nat) : Prop :=
  FlashOp.eraseSector s ∈ t

/-- One byte of the canonical byte-at-a-time denotation: program byte b at
T + off, then apply the write loop's erase rule for the new offset
off + 1. -/
def byteStep (T : Nat) (f : Nat → Nat) (off b : Nat) : Nat → Nat :=
  let f1 : Nat → Nat := fun x => if x = T + off then b else f x
  if (off + 1) % SECTOR_SIZE = 0 then
    applyOp f1 (FlashOp.eraseSector ((T + off + 1) / SECTOR_SIZE))
  else f1

/-- Canonical denotation: flash contents after feeding the bytes of the
stream one at a time from cumulative offset off. -/
def byteDenot (T : Nat) : (Nat → Nat) → Nat → List Nat → Nat → Nat
  | f, _, [] => f
  | f, off, b :: rest => byteDenot T (byteStep T f off b) (off + 1) rest

/-- Programming a contiguous block one byte at a time, with no erases. -/
def writeBytes (f : Nat → Nat) (a : Nat) : List Nat → Nat → Nat
  | [] => f
  | b :: rest => writeBytes (fun x => if x = a then b else f x) (a + 1) rest

/-- Result codes of the OTA layer, rboot-ota.h lines 39-51. -/
inductive ota_result where
  | OTA_OK
  | OTA_ERR_INVALID_ARGS
  | OTA_ERR_NO_MEM
  | OTA_ERR_FLASH
  | OTA_ERR_INVALID_IMAGE
  | OTA_ERR_TIMEOUT
  | OTA_ERR_VERIFY
  | OTA_ERR_WRITE
  | OTA_ERR_ERASE
  | OTA_ERR_IN_PROGRESS
  | OTA_ERR_NO_UPDATE
deriving DecidableEq

export ota_result (OTA_OK OTA_ERR_INVALID_ARGS OTA_ERR_NO_MEM OTA_ERR_FLASH
  OTA_ERR_INVALID_IMAGE OTA_ERR_TIMEOUT OTA_ERR_VERIFY OTA_ERR_WRITE
  OTA_ERR_ERASE OTA_ERR_IN_PROGRESS OTA_ERR_NO_UPDATE)

/-- Session states, rboot-ota.h lines 54-61. -/
inductive ota_state where
  | READY
  | STARTED
  | WRITING
  | VERIFYING
  | COMPLETE
  | ERROR
deriving DecidableEq

/-- Modelled from the spec: the persisted BootConfig record (rboot.h, not
under src/): magic, version, mode, current_rom, count, and the per-slot
base addresses roms (fixed maximum cardinality MAX_ROMS). -/
structure rboot_config where
  magic : Nat
  version : Nat
  mode : Nat
  current_rom : Nat
  count : Nat
  roms : List Nat
deriving DecidableEq

/-- Contents of the boot-configuration flash sector: either a valid record
or blank after an erase that was not followed by a completed rewrite. -/
inductive SectorState where
  | valid (c : rboot_config)
  | erased
deriving DecidableEq

/-- ROM image header used for verification, rboot-ota.c lines 31-37.  The
entry pointer is modelled as a Nat address. -/
structure rom_header where
  magic : Nat
  count : Nat
  flags1 : Nat
  flags2 : Nat
  entry : Nat
deriving DecidableEq

/-- The OTA handle, rboot-ota.h lines 64-73.  The buffer pointer is the
static ota_buffer array (never NULL) and is not part of the value-level
state; buffer_size is kept. -/
structure ota_handle where
  target_addr : Nat
  write_offset : Nat
  total_size : Nat
  written_size : Nat
  buffer_size : Nat
  state : ota_state
  target_rom : Nat
deriving DecidableEq

/-- Embeds get_rom_address, rboot-ota.c lines 180-192: read the boot
configuration (configRead = none models a failing SPIRead, which yields
address 0); a slot at or beyond config.count yields the sentinel address
0; otherwise the slot's base address from roms. -/
def get_rom_address (configRead : Option rboot_config) (rom : Nat) : Nat :=
  match configRead with
  | none => 0
  | some c => if c.count ≤ rom then 0 else c.roms.getD rom 0

/-- Embeds rboot_ota_is_in_progress, rboot-ota.c lines 145-147, over the
explicit current_ota session slot (the static current_ota pointer,
modelled as the claimed handle when a session is live). -/
def rboot_ota_is_in_progress (current_ota : Option ota_handle) : Nat :=
  if current_ota.isSome then 1 else 0

/-- Embeds rboot_ota_begin, rboot-ota.c lines 39-67, for a non-NULL
handle: reject target_rom ≥ MAX_ROMS; reject when a session is live; else
zero the handle, resolve the target address, attach the static buffer
(never NULL, so the NO_MEM branch is unreachable), claim the global
session slot and enter STARTED.  Note that max_size is accepted but never
stored: the memset leaves total_size = 0.  Returns the result code and
the session slot after the call (which is also the initialized handle on
success). -/
def rboot_ota_begin (current_ota : Option ota_handle)
    (configRead : Option rboot_config) (target_rom max_size : Nat) :
    ota_result × Option ota_handle :=
  if MAX_ROMS ≤ target_rom then (OTA_ERR_INVALID_ARGS, current_ota)
  else if current_ota.isSome then (OTA_ERR_IN_PROGRESS, current_ota)
  else
    (OTA_OK, some
      { target_addr := get_rom_address configRead target_rom
        write_offset := 0
        total_size := 0
        written_size := 0
        buffer_size := OTA_BUFFER_SIZE
        state := ota_state.STARTED
        target_rom := target_rom })

/-- Handle-state projection of rboot_ota_write, rboot-ota.c lines 69-111,
on the successful path (non-NULL data; every SPIWrite and SPIEraseSector
succeeds): size = 0 or a state other than STARTED/WRITING is rejected,
otherwise the state becomes WRITING and the offset counters advance by
size.  The flash operations the same call issues are modelled by
otaWriteTrace. -/
def rboot_ota_write_h (h : ota_handle) (size : Nat) : ota_result × ota_handle :=
  if size = 0 then (OTA_ERR_INVALID_ARGS, h)
  else if h.state ≠ ota_state.STARTED ∧ h.state ≠ ota_state.WRITING then
    (OTA_ERR_INVALID_ARGS, h)
  else
    (OTA_OK,
      { h with
          state := ota_state.WRITING
          write_offset := h.write_offset + size
          written_size := h.written_size + size })

/-- Embeds verify_image, rboot-ota.c lines 166-178: read the ROM header at
addr (hdrRead = none models a failing SPIRead); valid iff the leading
magic byte equals 0xE9.  The length argument is accepted and ignored,
exactly as in the source. -/
def verify_image (addr length : Nat) (hdrRead : Option rom_header) : ota_result :=
  match hdrRead with
  | none => OTA_ERR_VERIFY
  | some hd => if hd.magic = 0xE9 then OTA_OK else OTA_ERR_VERIFY

/-- Embeds rboot_set_boot_rom, rboot-new.c lines 69-91: read the
configuration sector (readOk), validate rom < count, erase the sector
(eraseOk) and rewrite it in full with current_rom = rom (writeOk).
Returns 1 on success, 0 on any failure, together with the sector contents
afterwards; a failed write after a successful erase leaves the sector
blank.  A failed read or erase leaves the sector as it was. -/
def rboot_set_boot_rom (sector : rboot_config) (readOk eraseOk writeOk : Bool)
    (rom : Nat) : Nat × SectorState :=
  if readOk = false then (0, SectorState.valid sector)
  else if sector.count ≤ rom then (0, SectorState.valid sector)
  else if eraseOk = false then (0, SectorState.valid sector)
  else if writeOk = false then (0, SectorState.erased)
  else (1, SectorState.valid { sector with current_rom := rom })

/-- Embeds rboot_get_current_rom, rboot-new.c lines 62-66: SPIRead the
configuration sector into a local and return its current_rom field.  The
read's status is discarded by the source, so on a failing read the
function returns the current_rom field of the uninitialized local, which
is modelled by the explicit junk record. -/
def rboot_get_current_rom (sector : rboot_config) (readOk : Bool)
    (junk : rboot_config) : Nat :=
  if readOk then sector.current_rom else junk.current_rom

/-- Embeds rboot_ota_end, rboot-ota.c lines 113-134: legal only from
WRITING; verify the header read back from the target address; on success
enter COMPLETE and commit the target slot via rboot_set_boot_rom, whose
return value is discarded; on failure enter ERROR and leave the sector
untouched; in both cases release the session slot.  Returns the result
code, the handle afterwards, the session slot afterwards, and the
configuration sector afterwards. -/
def rboot_ota_end (current_ota : Option ota_handle) (h : ota_handle)
    (hdrRead : Option rom_header) (sector : rboot_config)
    (readOk eraseOk writeOk : Bool) :
    ota_result × ota_handle × Option ota_handle × SectorState :=
  if h.state ≠ ota_state.WRITING then
    (OTA_ERR_INVALID_ARGS, h, current_ota, SectorState.valid sector)
  else
    let r := verify_image h.target_addr h.write_offset hdrRead
    if r = OTA_OK then
      (r, { h with state := ota_state.COMPLETE }, none,
        (rboot_set_boot_rom sector readOk eraseOk writeOk h.target_rom).2)
    else
      (r, { h with state := ota_state.ERROR }, none, SectorState.valid sector)

/-- Embeds rboot_ota_get_status, rboot-ota.c lines 149-163, with a non-NULL
progress pointer: a NULL handle yields OTA_STATE_ERROR without writing
progress (none); otherwise the state tag together with
written_size * 100 / total_size when total_size > 0, else 0. -/
def rboot_ota_get_status (h : Option ota_handle) : ota_state × Option Nat :=
  match h with
  | none => (ota_state.ERROR, none)
  | some h =>
      (h.state,
        some (if 0 < h.total_size then h.written_size * 100 / h.total_size else 0))

/-- Embeds check_factory_reset, rboot-new.c lines 49-53: the flag word read
from RTC scratch memory equals the magic constant.  flag is the stored
word (a failing RTC read leaves the zero-initialized local, modelled by
passing 0). -/
def check_factory_reset (flag : Nat) : Bool :=
  flag == FACTORY_RESET_MAGIC

/-- Embeds rboot_set_factory_reset, rboot-new.c lines 56-59: the word it
writes to the RTC flag location. -/
def rboot_set_factory_reset (enable : Bool) : Nat :=
  if enable then FACTORY_RESET_MAGIC else 0

/-- Embeds the flash-size heuristic of perform_factory_reset, rboot-new.c
lines 105-116: default 1MB; when the 4-byte SPIRead at address 0 succeeds,
vendor ID byte 0x40 means 2MB and 0x30 means 4MB. -/
def flashSizeFromId (idRead : Option Nat) : Nat :=
  match idRead with
  | none => 0x100000
  | some id =>
      if id % 256 = 0x40 then 0x200000
      else if id % 256 = 0x30 then 0x400000
      else 0x100000

/-- State left by perform_factory_reset at its pre-reboot point: the
configuration sector contents and the RTC factory-reset flag word. -/
structure ResetState where
  sector : SectorState
  rtcFlag : Nat
deriving DecidableEq

/-- Embeds perform_factory_reset, rboot-new.c lines 94-130, up to its
pre-reboot point (the final break instruction).  The LED blinking changes
no modelled state.  default_config is defined in rboot.c, which is not
under src/; modelled from the spec ("builds a default BootConfig sized for
that capacity") as an abstract parameter dc applied to the estimated flash
size.  The erase and rewrite of the configuration sector (whose status
results the source discards) are modelled as succeeding. -/
def perform_factory_reset (dc : Nat → rboot_config) (idRead : Option Nat) :
    ResetState :=
  let flashsize := flashSizeFromId idRead
  let romconf := dc flashsize
  { sector := SectorState.valid romconf
    rtcFlag := rboot_set_factory_reset false }

/-- Example boot configuration with two configured slots. -/
def cfgTwo : rboot_config :=
  { magic := 0xE1
    version := 0x01
    mode := 0
    current_rom := 0
    count := 2
    roms := [0x2000, 0x82000, 0, 0] }

theorem applyTrace_nil (f : Nat → Nat) : applyTrace f [] = f := rfl

theorem applyTrace_cons (f : Nat → Nat) (op : FlashOp) (t : List FlashOp) :
    applyTrace f (op :: t) = applyTrace (applyOp f op) t := rfl

theorem applyTrace_append (f : Nat → Nat) (t1 t2 : List FlashOp) :
    applyTrace f (t1 ++ t2) = applyTrace (applyTrace f t1) t2 := by
  simp [applyTrace, List.foldl_append]

theorem applyOp_write_eq_writeBytes (bs : List Nat) :
    ∀ (f : Nat → Nat) (a : Nat), applyOp f (FlashOp.write a bs) = writeBytes f a bs := by
  induction bs with
  | nil =>
    intro f a
    funext x
    show (if a ≤ x ∧ x < a + ([] : List Nat).length then ([] : List Nat).getD (x - a) 0
          else f x) = f x
    rw [if_neg (by simp only [List.length_nil]; omega)]
  | cons b t ih =>
    intro f a
    funext x
    have h := congrFun (ih (fun y => if y = a then b else f y) (a + 1)) x
    show (if a ≤ x ∧ x < a + (b :: t).length then (b :: t).getD (x - a) 0 else f x) =
      writeBytes (fun y => if y = a then b else f y) (a + 1) t x
    rw [← h]
    show (if a ≤ x ∧ x < a + (b :: t).length then (b :: t).getD (x - a) 0 else f x) =
      (if a + 1 ≤ x ∧ x < a + 1 + t.length then t.getD (x - (a + 1)) 0
       else if x = a then b else f x)
    by_cases hxa : x = a
    · rw [if_pos (by simp only [List.length_cons]; omega),
        if_neg (by omega), if_pos hxa, hxa, Nat.sub_self]
      rfl
    · by_cases hr : a + 1 ≤ x ∧ x < a + 1 + t.length
      · rw [if_pos (by simp only [List.length_cons]; omega), if_pos hr]
        have hx1 : x - a = (x - (a + 1)) + 1 := by omega
        rw [hx1, List.getD_cons_succ]
      · rw [if_neg (by simp only [List.length_cons]; omega), if_neg hr, if_neg hxa]

theorem byteDenot_append (T : Nat) (l1 : List Nat) :
    ∀ (f : Nat → Nat) (off : Nat) (l2 : List Nat),
      byteDenot T f off (l1 ++ l2) =
        byteDenot T (byteDenot T f off l1) (off + l1.length) l2 := by
  induction l1 with
  | nil => intro f off l2; simp [byteDenot]
  | cons b t ih =>
    intro f off l2
    show byteDenot T (byteStep T f off b) (off + 1) (t ++ l2) =
      byteDenot T (byteDenot T (byteStep T f off b) (off + 1) t) (off + (b :: t).length) l2
    rw [ih]
    have hlen : off + 1 + t.length = off + (b :: t).length := by simp; omega
    rw [hlen]

theorem byteDenot_no_erase (T : Nat) (bs : List Nat) :
    ∀ (f : Nat → Nat) (off : Nat),
      (∀ k, 1 ≤ k → k ≤ bs.length → (off + k) % SECTOR_SIZE ≠ 0) →
      byteDenot T f off bs = writeBytes f (T + off) bs := by
  induction bs with
  | nil => intro f off _; rfl
  | cons b t ih =>
    intro f off hk
    show byteDenot T (byteStep T f off b) (off + 1) t =
      writeBytes (fun x => if x = T + off then b else f x) (T + off + 1) t
    have h1 : (off + 1) % SECTOR_SIZE ≠ 0 := hk 1 (Nat.le_refl 1) (by simp)
    have hstep : byteStep T f off b = fun x => if x = T + off then b else f x := by
      simp [byteStep, h1]
    rw [hstep, ih _ (off + 1) (fun k h1k h2k => by
      have h3 : off + 1 + k = off + (k + 1) := by omega
      rw [h3]
      exact hk (k + 1) (by omega) (by simp only [List.length_cons]; omega))]
    have : T + (off + 1) = T + off + 1 := by omega
    rw [this]

theorem byteDenot_erase_at_end (T : Nat) (bs : List Nat) :
    ∀ (f : Nat → Nat) (off : Nat),
      (∀ k, 1 ≤ k → k < bs.length → (off + k) % SECTOR_SIZE ≠ 0) →
      (off + bs.length) % SECTOR_SIZE = 0 → bs ≠ [] →
      byteDenot T f off bs =
        applyOp (writeBytes f (T + off) bs)
          (FlashOp.eraseSector ((T + off + bs.length) / SECTOR_SIZE)) := by
  induction bs with
  | nil => intro f off _ _ hne; exact absurd rfl hne
  | cons b t ih =>
    intro f off hk hend _
    cases t with
    | nil =>
      show byteDenot T (byteStep T f off b) (off + 1) [] = _
      have h1 : (off + 1) % SECTOR_SIZE = 0 := by simpa using hend
      show byteStep T f off b = _
      simp only [byteStep, h1, if_pos]
      have h2 : T + off + (b :: ([] : List Nat)).length = T + (off + 1) := by
        simp only [List.length_cons, List.length_nil]
        omega
      rw [h2]
      rfl
    | cons b2 t2 =>
      show byteDenot T (byteStep T f off b) (off + 1) (b2 :: t2) = _
      have h1 : (off + 1) % SECTOR_SIZE ≠ 0 := hk 1 (Nat.le_refl 1) (by simp)
      have hstep : byteStep T f off b = fun x => if x = T + off then b else f x := by
        simp [byteStep, h1]
      rw [hstep, ih _ (off + 1)
        (fun k h1k h2k => by
          have h3 : off + 1 + k = off + (k + 1) := by omega
          rw [h3]
          exact hk (k + 1) (by omega) (by simp only [List.length_cons] at h2k ⊢; omega))
        (by
          have h3 : off + 1 + (b2 :: t2).length = off + (b :: b2 :: t2).length := by
            simp only [List.length_cons]; omega
          rw [h3]; exact hend)
        (by simp)]
      have e1 : T + (off + 1) = T + off + 1 := by omega
      rw [e1]
      have e2 : T + off + 1 + (b2 :: t2).length = T + off + (b :: b2 :: t2).length := by
        simp only [List.length_cons]; omega
      rw [e2]
      rfl

theorem otaWriteGo_nil (fuel T off : Nat) : otaWriteGo fuel T off [] = [] := by
  cases fuel <;> rfl

theorem writeGo_denot (fuel : Nat) :
    ∀ (T off : Nat) (f : Nat → Nat) (S : List Nat),
      S.length ≤ fuel → off % SECTOR_SIZE = 0 →
      applyTrace f (otaWriteGo fuel T off S) = byteDenot T f off S := by
  induction fuel with
  | zero =>
    intro T off f S hlen _
    have hS : S = [] := List.length_eq_zero.mp (Nat.le_zero.mp hlen)
    subst hS
    rfl
  | succ fuel ih =>
    intro T off f S hlen hoff
    cases S with
    | nil => rfl
    | cons b rest =>
      have hSS : SECTOR_SIZE = 4096 := rfl
      have hBS : OTA_BUFFER_SIZE = 4096 := rfl
      set data : List Nat := b :: rest with hdata
      set n : Nat := data.length with hn
      set c : Nat := min n OTA_BUFFER_SIZE with hc
      have hc1 : 1 ≤ c := by
        rw [hc, hn, hdata]; simp [hBS]
      have hcn : c ≤ n := by rw [hc]; exact Nat.min_le_left _ _
      have hc4096 : c ≤ 4096 := by rw [hc, hBS]; exact Nat.min_le_right _ _
      have htlen : (data.take c).length = c := by
        rw [List.length_take]; omega
      have htake_ne : data.take c ≠ [] := by
        intro hcon
        have := congrArg List.length hcon
        rw [htlen] at this
        simp at this
        omega
      have hgo : otaWriteGo (fuel + 1) T off data =
          FlashOp.write (T + off) (data.take c) ::
            ((if (off + c) % SECTOR_SIZE = 0 then
                [FlashOp.eraseSector ((T + off + c) / SECTOR_SIZE)]
              else []) ++ otaWriteGo fuel T (off + c) (data.drop c)) := rfl
      rw [hgo, applyTrace_cons, applyTrace_append,
        applyOp_write_eq_writeBytes (data.take c) f (T + off)]
      have hsplit : byteDenot T f off data =
          byteDenot T (byteDenot T f off (data.take c)) (off + c) (data.drop c) := by
        conv_lhs => rw [← List.take_append_drop c data]
        rw [byteDenot_append, htlen]
      rw [hsplit]
      by_cases hE : (off + c) % SECTOR_SIZE = 0
      · have hchunk : byteDenot T f off (data.take c) =
            applyOp (writeBytes f (T + off) (data.take c))
              (FlashOp.eraseSector ((T + off + c) / SECTOR_SIZE)) := by
          have h := byteDenot_erase_at_end T (data.take c) f off
            (fun k h1k h2k => by rw [htlen] at h2k; rw [hSS] at hoff ⊢; omega)
            (by rw [htlen]; exact hE) htake_ne
          rw [htlen] at h
          exact h
        rw [if_pos hE]
        have happ : applyTrace (writeBytes f (T + off) (data.take c))
            [FlashOp.eraseSector ((T + off + c) / SECTOR_SIZE)] =
            applyOp (writeBytes f (T + off) (data.take c))
              (FlashOp.eraseSector ((T + off + c) / SECTOR_SIZE)) := rfl
        rw [happ, ← hchunk]
        by_cases hcfull : c = 4096
        · exact ih T (off + c) _ (data.drop c)
            (by rw [List.length_drop]; omega)
            (by rw [hSS] at hoff ⊢; omega)
        · have hceq : c = n := by rw [hc] at hc4096 ⊢; rw [hBS]; omega
          have hdrop : data.drop c = [] := by
            rw [List.drop_eq_nil_iff]; omega
          rw [hdrop, otaWriteGo_nil, applyTrace_nil]
          rfl
      · rw [if_neg hE]
        have happ : applyTrace (writeBytes f (T + off) (data.take c))
            ([] : List FlashOp) = writeBytes f (T + off) (data.take c) := rfl
        rw [happ]
        have hchunk : byteDenot T f off (data.take c) = writeBytes f (T + off) (data.take c) := by
          apply byteDenot_no_erase
          intro k h1k h2k
          rw [htlen] at h2k
          rcases Nat.lt_or_ge k c with hlt | hge
          · rw [hSS] at hoff ⊢; omega
          · have hkc : k = c := by omega
            subst hkc
            exact hE
        rw [← hchunk]
        by_cases hcfull : c = 4096
        · exact ih T (off + c) _ (data.drop c)
            (by rw [List.length_drop]; omega)
            (by rw [hSS] at hoff ⊢; omega)
        · have hceq : c = n := by rw [hc] at hc4096 ⊢; rw [hBS]; omega
          have hdrop : data.drop c = [] := by
            rw [List.drop_eq_nil_iff]; omega
          rw [hdrop, otaWriteGo_nil, applyTrace_nil]
          rfl

theorem sessionTrace_oneByte (T : Nat) (S : List Nat) :
    ∀ (off : Nat) (f : Nat → Nat),
      applyTrace f (otaSessionTrace T off (S.map fun b => [b])) = byteDenot T f off S := by
  induction S with
  | nil => intro off f; rfl
  | cons b rest ih =>
    intro off f
    show applyTrace f (otaWriteTrace T off [b] ++
        otaSessionTrace T (off + 1) (rest.map fun b2 => [b2])) = _
    have hone : otaWriteTrace T off [b] =
        FlashOp.write (T + off) [b] ::
          (if (off + 1) % SECTOR_SIZE = 0 then
              [FlashOp.eraseSector ((T + off + 1) / SECTOR_SIZE)]
            else []) := by
      show otaWriteGo 1 T off [b] = _
      simp [otaWriteGo, OTA_BUFFER_SIZE]
    rw [hone]
    rw [show (FlashOp.write (T + off) [b] ::
          (if (off + 1) % SECTOR_SIZE = 0 then
              [FlashOp.eraseSector ((T + off + 1) / SECTOR_SIZE)]
            else [])) ++ otaSessionTrace T (off + 1) (rest.map fun b2 => [b2]) =
        FlashOp.write (T + off) [b] ::
          ((if (off + 1) % SECTOR_SIZE = 0 then
              [FlashOp.eraseSector ((T + off + 1) / SECTOR_SIZE)]
            else []) ++ otaSessionTrace T (off + 1) (rest.map fun b2 => [b2])) from rfl]
    rw [applyTrace_cons, applyTrace_append]
    rw [applyOp_write_eq_writeBytes [b] f (T + off)]
    have hstep : applyTrace (writeBytes f (T + off) [b])
        (if (off + 1) % SECTOR_SIZE = 0 then
            [FlashOp.eraseSector ((T + off + 1) / SECTOR_SIZE)]
          else []) = byteStep T f off b := by
      by_cases h1 : (off + 1) % SECTOR_SIZE = 0
      · simp [h1, byteStep, applyTrace, writeBytes]
      · simp [h1, byteStep, applyTrace, writeBytes]
    rw [hstep]
    exact ih (off + 1) (byteStep T f off b)

theorem otaWriteGo_cons_eq (fuel T off b : Nat) (rest : List Nat) :
    otaWriteGo (fuel + 1) T off (b :: rest) =
      FlashOp.write (T + off) ((b :: rest).take (min (b :: rest).length OTA_BUFFER_SIZE)) ::
        ((if (off + min (b :: rest).length OTA_BUFFER_SIZE) % SECTOR_SIZE = 0 then
            [FlashOp.eraseSector
              ((T + off + min (b :: rest).length OTA_BUFFER_SIZE) / SECTOR_SIZE)]
          else []) ++
          otaWriteGo fuel T (off + min (b :: rest).length OTA_BUFFER_SIZE)
            ((b :: rest).drop (min (b :: rest).length OTA_BUFFER_SIZE))) := rfl

theorem otaWriteGo_full (fuel T off : Nat) (bs rest2 : List Nat) (hfuel : 1 ≤ fuel)
    (hbs : bs.length = OTA_BUFFER_SIZE) :
    otaWriteGo fuel T off (bs ++ rest2) =
      FlashOp.write (T + off) bs ::
        ((if (off + OTA_BUFFER_SIZE) % SECTOR_SIZE = 0 then
            [FlashOp.eraseSector ((T + off + OTA_BUFFER_SIZE) / SECTOR_SIZE)]
          else []) ++ otaWriteGo (fuel - 1) T (off + OTA_BUFFER_SIZE) rest2) := by
  obtain ⟨f1, rfl⟩ : ∃ f1, fuel = f1 + 1 := ⟨fuel - 1, by omega⟩
  cases bs with
  | nil => simp [OTA_BUFFER_SIZE] at hbs
  | cons b bs2 =>
    rw [List.cons_append, otaWriteGo_cons_eq]
    have hlen : (b :: (bs2 ++ rest2)).length = OTA_BUFFER_SIZE + rest2.length := by
      simp only [List.length_cons, List.length_append]
      simp only [List.length_cons] at hbs
      omega
    have hmin : min (b :: (bs2 ++ rest2)).length OTA_BUFFER_SIZE = OTA_BUFFER_SIZE := by
      rw [hlen]
      exact Nat.min_eq_right (Nat.le_add_right _ _)
    rw [hmin]
    have htke : (b :: (bs2 ++ rest2)).take OTA_BUFFER_SIZE = b :: bs2 := by
      rw [← hbs, ← List.cons_append, List.take_left]
    have hdrp : (b :: (bs2 ++ rest2)).drop OTA_BUFFER_SIZE = rest2 := by
      rw [← hbs, ← List.cons_append, List.drop_left]
    rw [htke, hdrp]
    simp

theorem otaWriteGo_last (fuel T off : Nat) (bs : List Nat) (hfuel : 1 ≤ fuel)
    (hne : bs ≠ []) (hlen : bs.length ≤ OTA_BUFFER_SIZE) :
    otaWriteGo fuel T off bs =
      FlashOp.write (T + off) bs ::
        (if (off + bs.length) % SECTOR_SIZE = 0 then
          [FlashOp.eraseSector ((T + off + bs.length) / SECTOR_SIZE)]
        else []) := by
  obtain ⟨f1, rfl⟩ : ∃ f1, fuel = f1 + 1 := ⟨fuel - 1, by omega⟩
  cases bs with
  | nil => exact absurd rfl hne
  | cons b bs2 =>
    rw [otaWriteGo_cons_eq]
    have hmin : min (b :: bs2).length OTA_BUFFER_SIZE = (b :: bs2).length :=
      Nat.min_eq_left hlen
    rw [hmin, List.take_length, List.drop_length, otaWriteGo_nil, List.append_nil]

/-- Junk record standing for the uninitialized local romconf left behind by
a failing SPIRead in rboot_get_current_rom. -/
def junkCfg : rboot_config :=
  { magic := 0
    version := 0
    mode := 0
    current_rom := 7
    count := 0
    roms := [] }

/-- Example ROM header whose leading magic byte matches the expected
structural constant 0xE9. -/
def hdrGood : rom_header :=
  { magic := 0xE9
    count := 1
    flags1 := 0
    flags2 := 0
    entry := 0x40100000 }

/-- The handle rboot_ota_begin initializes for slot 0 of cfgTwo. -/
def hLive : ota_handle :=
  { target_addr := 0x2000
    write_offset := 0
    total_size := 0
    written_size := 0
    buffer_size := OTA_BUFFER_SIZE
    state := ota_state.STARTED
    target_rom := 0 }

/-- A mid-session handle in state WRITING, targeting slot 1 of cfgTwo with
one full sector already written. -/
def hWriting : ota_handle :=
  { target_addr := 0x82000
    write_offset := 4096
    total_size := 0
    written_size := 4096
    buffer_size := OTA_BUFFER_SIZE
    state := ota_state.WRITING
    target_rom := 1 }

/-- A mid-session handle in state WRITING whose target_rom (3) lies at or
beyond cfgTwo.count (2), as produced by rboot_ota_begin for slot 3. -/
def hWriting3 : ota_handle :=
  { target_addr := 0
    write_offset := 4096
    total_size := 0
    written_size := 4096
    buffer_size := OTA_BUFFER_SIZE
    state := ota_state.WRITING
    target_rom := 3 }

/-- Header-read outcome whose leading magic byte matches 0xE9. -/
def headerMagicMatches (hdrRead : Option rom_header) : Prop :=
  hdrRead.map rom_header.magic = some 0xE9

/-- C1: the claim "no byte is ever programmed into a sector that has not
yet been erased during the session" fails on the code: a one-call session
of 4097 bytes at the sector-aligned target 0x2000 programs bytes into
sector 2 (the target's own first sector), which is never erased during the
session, while sector 3 is erased (erases fire only when the cumulative
offset reaches a sector multiple, and they target the following sector). -/
theorem first_sector_programmed_without_erase :
    traceProgramsSector (otaSessionTrace 0x2000 0 [List.replicate 4097 0xE9]) 2 ∧
    ¬ traceErasesSector (otaSessionTrace 0x2000 0 [List.replicate 4097 0xE9]) 2 ∧
    traceErasesSector (otaSessionTrace 0x2000 0 [List.replicate 4097 0xE9]) 3 := by
  have hsplit : List.replicate 4097 (0xE9 : Nat) =
      List.replicate 4096 0xE9 ++ List.replicate 1 0xE9 := by
    rw [← List.replicate_add]
  have htr : otaSessionTrace 0x2000 0 [List.replicate 4097 0xE9] =
      [FlashOp.write 0x2000 (List.replicate 4096 0xE9),
        FlashOp.eraseSector 3,
        FlashOp.write 0x3000 (List.replicate 1 0xE9)] := by
    show otaWriteGo (List.replicate 4097 (0xE9 : Nat)).length 0x2000 0
        (List.replicate 4097 0xE9) ++ [] = _
    rw [List.append_nil, List.length_replicate, hsplit,
      otaWriteGo_full 4097 0x2000 0 (List.replicate 4096 0xE9) (List.replicate 1 0xE9)
        (by norm_num)
        (by rw [List.length_replicate]; rfl),
      otaWriteGo_last (4097 - 1) 0x2000 (0 + OTA_BUFFER_SIZE) (List.replicate 1 0xE9)
        (by norm_num)
        (List.ne_nil_of_length_pos (by rw [List.length_replicate]; norm_num))
        (by rw [List.length_replicate]; norm_num [OTA_BUFFER_SIZE])]
    simp only [List.length_replicate]
    norm_num [-List.reduceReplicate, OTA_BUFFER_SIZE, SECTOR_SIZE]
  rw [htr]
  refine ⟨⟨0x2000, List.replicate 4096 0xE9, List.mem_cons_self _ _,
      by norm_num [SECTOR_SIZE],
      List.ne_nil_of_length_pos (by rw [List.length_replicate]; norm_num)⟩,
    ?_, ?_⟩
  · simp [-List.reduceReplicate, traceErasesSector]
  · simp [-List.reduceReplicate, traceErasesSector]

/-- C2 (counterexample): the final flash contents are not independent of
how the caller partitions the stream: the same 4196-byte all-zero stream
written as one call erases the sector at 0x3000 (the cumulative offset
lands exactly on 4096), while written as the two calls of 100 and 4096
bytes it never does (the offsets 100 and 4196 skip the boundary), so the
flash differs at address 0x3064. -/
theorem chunking_changes_flash :
    List.replicate 100 0 ++ List.replicate 4096 0 = List.replicate 4196 (0 : Nat) ∧
    applyTrace (fun _ => 0) (otaSessionTrace 0x2000 0 [List.replicate 4196 0]) 0x3064 ≠
      applyTrace (fun _ => 0)
        (otaSessionTrace 0x2000 0
          [List.replicate 100 0, List.replicate 4096 0]) 0x3064 := by
  refine ⟨by rw [← List.replicate_add], ?_⟩
  have htrA : otaSessionTrace 0x2000 0 [List.replicate 4196 0] =
      [FlashOp.write 0x2000 (List.replicate 4096 0),
        FlashOp.eraseSector 3,
        FlashOp.write 0x3000 (List.replicate 100 0)] := by
    have hsplitA : List.replicate 4196 (0 : Nat) =
        List.replicate 4096 0 ++ List.replicate 100 0 := by
      rw [← List.replicate_add]
    show otaWriteGo (List.replicate 4196 (0 : Nat)).length 0x2000 0
        (List.replicate 4196 0) ++ [] = _
    rw [List.append_nil, List.length_replicate, hsplitA,
      otaWriteGo_full 4196 0x2000 0 (List.replicate 4096 0) (List.replicate 100 0)
        (by norm_num)
        (by rw [List.length_replicate]; rfl),
      otaWriteGo_last (4196 - 1) 0x2000 (0 + OTA_BUFFER_SIZE) (List.replicate 100 0)
        (by norm_num)
        (List.ne_nil_of_length_pos (by rw [List.length_replicate]; norm_num))
        (by rw [List.length_replicate]; norm_num [OTA_BUFFER_SIZE])]
    simp only [List.length_replicate]
    norm_num [-List.reduceReplicate, OTA_BUFFER_SIZE, SECTOR_SIZE]
  have htrB : otaSessionTrace 0x2000 0 [List.replicate 100 0, List.replicate 4096 0] =
      [FlashOp.write 0x2000 (List.replicate 100 0),
        FlashOp.write 0x2064 (List.replicate 4096 0)] := by
    show otaWriteGo (List.replicate 100 (0 : Nat)).length 0x2000 0 (List.replicate 100 0) ++
        (otaWriteGo (List.replicate 4096 (0 : Nat)).length 0x2000
          (0 + (List.replicate 100 (0 : Nat)).length) (List.replicate 4096 0) ++ []) = _
    rw [List.append_nil, List.length_replicate, List.length_replicate,
      otaWriteGo_last 100 0x2000 0 (List.replicate 100 0)
        (by norm_num)
        (List.ne_nil_of_length_pos (by rw [List.length_replicate]; norm_num))
        (by rw [List.length_replicate]; norm_num [OTA_BUFFER_SIZE]),
      otaWriteGo_last 4096 0x2000 (0 + 100) (List.replicate 4096 0)
        (by norm_num)
        (List.ne_nil_of_length_pos (by rw [List.length_replicate]; norm_num))
        (by rw [List.length_replicate]; norm_num [OTA_BUFFER_SIZE])]
    simp only [List.length_replicate]
    norm_num [-List.reduceReplicate, OTA_BUFFER_SIZE, SECTOR_SIZE]
  rw [htrA, htrB]
  simp only [applyTrace, List.foldl_cons, List.foldl_nil, applyOp, List.length_replicate]
  norm_num [-List.reduceReplicate, SECTOR_SIZE]

/-- C2 (amended): the two specific chunkings named by the claim do agree:
for every byte stream, every target address and every initial flash state,
feeding the stream as one-byte chunks and as one single call produce
identical final flash contents (both hit every sector-multiple offset, so
they issue the same erases at the same stream positions). -/
theorem oneByte_chunks_eq_one_call (T : Nat) (f : Nat → Nat) (S : List Nat) :
    applyTrace f (otaSessionTrace T 0 (S.map fun b => [b])) =
      applyTrace f (otaSessionTrace T 0 [S]) := by
  rw [sessionTrace_oneByte]
  show byteDenot T f 0 S = applyTrace f (otaWriteGo S.length T 0 S ++ [])
  rw [List.append_nil, writeGo_denot S.length T 0 f S (Nat.le_refl _) (Nat.zero_mod _)]

/-- C3 (counterexample): begin(slot=3) with count==2 returns OTA_OK, not
InvalidArgs: rboot_ota_begin validates the slot against the compile-time
capacity MAX_ROMS, not against the configured count. -/
theorem begin_accepts_slot_beyond_count :
    cfgTwo.count = 2 ∧ (rboot_ota_begin none (some cfgTwo) 3 0).1 = OTA_OK := by
  decide

/-- C3 (amended): begin fails with InvalidArgs for every slot at or beyond
MAX_ROMS (the compile-time slot capacity), leaving the session slot
untouched, and when no session was live isOtaInProgress stays 0; in
particular begin(slot=5) with count==2 returns InvalidArgs. -/
theorem begin_rejects_slot_beyond_max (cur : Option ota_handle)
    (cfgR : Option rboot_config) (rom msz : Nat) (hrom : MAX_ROMS ≤ rom) :
    rboot_ota_begin cur cfgR rom msz = (OTA_ERR_INVALID_ARGS, cur) ∧
      (cur = none →
        rboot_ota_is_in_progress (rboot_ota_begin cur cfgR rom msz).2 = 0) := by
  constructor
  · simp [rboot_ota_begin, hrom]
  · intro hc
    subst hc
    simp [rboot_ota_begin, hrom, rboot_ota_is_in_progress]

/-- C3 witness: the amended theorem at slot 5 with count == 2 and no live
session. -/
theorem begin_rejects_slot_beyond_max_witness :
    rboot_ota_begin none (some cfgTwo) 5 0 = (OTA_ERR_INVALID_ARGS, none) ∧
      ((none : Option ota_handle) = none →
        rboot_ota_is_in_progress (rboot_ota_begin none (some cfgTwo) 5 0).2 = 0) :=
  begin_rejects_slot_beyond_max none (some cfgTwo) 5 0 (by decide)

/-- C4: called from WRITING, rboot_ota_end leaves the handle in COMPLETE
exactly when the leading magic byte of the header read back from the
target address equals 0xE9; for a magic mismatch or a read failure it
leaves the handle in ERROR and the configuration sector — hence
current_rom — byte-for-byte unchanged. -/
theorem end_complete_iff_magic (cur : Option ota_handle) (h : ota_handle)
    (hdrRead : Option rom_header) (sector : rboot_config) (rOk eOk wOk : Bool)
    (hW : h.state = ota_state.WRITING) :
    ((rboot_ota_end cur h hdrRead sector rOk eOk wOk).2.1.state =
        ota_state.COMPLETE ↔ headerMagicMatches hdrRead) ∧
      (¬ headerMagicMatches hdrRead →
        (rboot_ota_end cur h hdrRead sector rOk eOk wOk).2.1.state =
            ota_state.ERROR ∧
          (rboot_ota_end cur h hdrRead sector rOk eOk wOk).2.2.2 =
            SectorState.valid sector) := by
  cases hdrRead with
  | none => simp [rboot_ota_end, hW, verify_image, headerMagicMatches]
  | some hd =>
    by_cases hm : hd.magic = 0xE9
    · simp [rboot_ota_end, hW, verify_image, hm, headerMagicMatches]
    · simp [rboot_ota_end, hW, verify_image, hm, headerMagicMatches]

/-- C4 witness: the theorem at a WRITING handle with a matching header. -/
theorem end_complete_iff_magic_witness :
    ((rboot_ota_end none hWriting (some hdrGood) cfgTwo true true true).2.1.state =
        ota_state.COMPLETE ↔ headerMagicMatches (some hdrGood)) ∧
      (¬ headerMagicMatches (some hdrGood) →
        (rboot_ota_end none hWriting (some hdrGood) cfgTwo true true true).2.1.state =
            ota_state.ERROR ∧
          (rboot_ota_end none hWriting (some hdrGood) cfgTwo true true true).2.2.2 =
            SectorState.valid cfgTwo) :=
  end_complete_iff_magic none hWriting (some hdrGood) cfgTwo true true true rfl

/-- C5 (counterexample): with a session already live, a second begin for
slot 4 (at MAX_ROMS) fails with InvalidArgs, not InProgress: argument
validation precedes the in-progress check. -/
theorem second_begin_can_fail_invalid_args :
    (rboot_ota_begin none (some cfgTwo) 0 0).1 = OTA_OK ∧
    (rboot_ota_begin (rboot_ota_begin none (some cfgTwo) 0 0).2
        (some cfgTwo) 4 0).1 = OTA_ERR_INVALID_ARGS := by
  decide

/-- C5 (amended): while the single global session slot is claimed (a live
session exists that has not been ended or cancelled), every further begin
whose arguments are valid (slot below MAX_ROMS) fails with InProgress and
leaves the session slot unchanged, so at most one session ever exists. -/
theorem begin_fails_while_in_progress (cur : Option ota_handle)
    (cfgR : Option rboot_config) (rom msz : Nat)
    (hcur : cur.isSome = true) (hrom : rom < MAX_ROMS) :
    rboot_ota_begin cur cfgR rom msz = (OTA_ERR_IN_PROGRESS, cur) := by
  simp [rboot_ota_begin, hcur, Nat.not_le.mpr hrom]

/-- C5 witness: a second begin for the valid slot 1 while the session
created for slot 0 is live. -/
theorem begin_fails_while_in_progress_witness :
    (some hLive).isSome = true ∧ 1 < MAX_ROMS ∧
      rboot_ota_begin (some hLive) (some cfgTwo) 1 0 =
        (OTA_ERR_IN_PROGRESS, some hLive) :=
  ⟨rfl, by decide,
    begin_fails_while_in_progress (some hLive) (some cfgTwo) 1 0 rfl (by decide)⟩

/-- C6: rboot_set_boot_rom with a slot at or beyond the configured count
returns failure (0) and leaves the configuration sector byte-for-byte
unchanged — the check happens before any erase or write of the sector. -/
theorem set_boot_rom_invalid_slot_unchanged (sector : rboot_config)
    (rOk eOk wOk : Bool) (rom : Nat) (hrom : sector.count ≤ rom) :
    rboot_set_boot_rom sector rOk eOk wOk rom = (0, SectorState.valid sector) := by
  cases rOk with
  | false => rfl
  | true => simp [rboot_set_boot_rom, hrom]

/-- C6 witness: the theorem at slot 5 against the two-slot configuration. -/
theorem set_boot_rom_invalid_slot_unchanged_witness :
    cfgTwo.count ≤ 5 ∧
      rboot_set_boot_rom cfgTwo true true true 5 = (0, SectorState.valid cfgTwo) :=
  ⟨by decide, set_boot_rom_invalid_slot_unchanged cfgTwo true true true 5 (by decide)⟩

/-- C7 (counterexample): on a failing configuration read, getCurrentRom
does not return the documented default 0: the SPIRead status is discarded,
so the current_rom of the uninitialized local (junk value 7 here) is
returned. -/
theorem get_current_rom_no_default :
    rboot_get_current_rom cfgTwo false junkCfg = 7 ∧
      rboot_get_current_rom cfgTwo false junkCfg ≠ 0 := by
  decide

/-- C7 (amended): getCurrentRom returns the current_rom field of the boot
configuration read from flash; when the read fails it returns the
current_rom field of the uninitialized local record — the read status is
ignored, and no explicit fallback to slot 0 exists in the code. -/
theorem get_current_rom_ignores_read_status (sector junk : rboot_config) :
    rboot_get_current_rom sector true junk = sector.current_rom ∧
      rboot_get_current_rom sector false junk = junk.current_rom :=
  ⟨rfl, rfl⟩

/-- C8: evaluation at the failing input: after begin(slot 0, maxSize
65536) and a successful write of 32768 bytes, getStatus reports progress
0 — begin never copies max_size into total_size, so the declared-ratio
value 32768 * 100 / 65536 = 50 required by the claim is never produced. -/
theorem get_status_progress_stuck_at_zero :
    (rboot_ota_begin none (some cfgTwo) 0 65536).2 = some hLive ∧
      (rboot_ota_get_status (some (rboot_ota_write_h hLive 32768).2)).2 = some 0 ∧
      32768 * 100 / 65536 = 50 := by
  decide

/-- C9: with the factory-reset flag word holding the magic constant,
checkRequested returns true; at the pre-reboot point of performReset the
configuration sector equals the default configuration computed for the
flash size estimated from the probed vendor ID byte, and checkRequested
returns false afterwards. -/
theorem factory_reset_restores_defaults (dc : Nat → rboot_config) (flag : Nat)
    (idRead : Option Nat) (hflag : flag = FACTORY_RESET_MAGIC) :
    check_factory_reset flag = true ∧
      (perform_factory_reset dc idRead).sector =
        SectorState.valid (dc (flashSizeFromId idRead)) ∧
      check_factory_reset (perform_factory_reset dc idRead).rtcFlag = false := by
  subst hflag
  exact ⟨rfl, rfl, rfl⟩

/-- Example default-config builder standing in for default_config within
the factory-reset witness. -/
def dcExample (flashsize : Nat) : rboot_config :=
  { magic := 0xE1
    version := 0x01
    mode := 0
    current_rom := 0
    count := 2
    roms := [0x2000, flashsize / 2 + 0x2000, 0, 0] }

/-- C9 witness: the theorem at the set flag and a probed vendor ID byte of
0x40 (2MB part). -/
theorem factory_reset_restores_defaults_witness :
    check_factory_reset FACTORY_RESET_MAGIC = true ∧
      (perform_factory_reset dcExample (some 0x40)).sector =
        SectorState.valid (dcExample (flashSizeFromId (some 0x40))) ∧
      check_factory_reset (perform_factory_reset dcExample (some 0x40)).rtcFlag =
        false :=
  factory_reset_restores_defaults dcExample FACTORY_RESET_MAGIC (some 0x40) rfl

/-- C10: a run in which verification passes and rboot_ota_end returns
OTA_OK with the handle in COMPLETE, yet the commit of the boot selection
failed — rboot_set_boot_rom rejects target_rom 3 ≥ count 2 and returns 0,
a value rboot_ota_end discards — so current_rom in the persisted
configuration still holds its old value 0. -/
theorem end_complete_does_not_guarantee_commit :
    (rboot_set_boot_rom cfgTwo true true true 3).1 = 0 ∧
      rboot_ota_end none hWriting3 (some hdrGood) cfgTwo true true true =
        (OTA_OK, { hWriting3 with state := ota_state.COMPLETE }, none,
          SectorState.valid cfgTwo) ∧
      cfgTwo.current_rom = 0 ∧ hWriting3.target_rom = 3 := by
  decide
